import Mathlib

/-!
# Verification of the terminology search / translation / expansion core

Shallow embedding of the Terminology Search Index & Cross-System Concept
Translation Engine (`src/services/fhirService.js` — class `FHIRService` —
and `src/services/searchService.js` — class `SearchService`).

Conventions of the embedding:
* JavaScript strings become Lean `String`; `toLowerCase`, `trim`,
  `includes`, `startsWith` become the list-based character operations
  below (`strToLower`, `strTrim`, `strIncludes`, `strStartsWith`).
* Fields that may be `undefined` in the JSON documents become `Option`
  fields; JavaScript truthiness of an optional string (`undefined` and
  `''` are falsy) is `jsTruthy`.
* `async` functions that can `throw` become functions into `Except String`;
  functions whose observed outcomes are all typed FHIR resources return
  plain values.
* JavaScript numbers are `Nat` where the source only ever adds
  non-negative integers (relevance scores), and `ℚ` for the normalized
  edit-distance similarity.
* Impure output fields (`uuidv4()` identifiers, timestamps) are omitted
  from the result records; no claim concerns them.
-/

namespace Qwerty

/-! ## String helpers mirroring the JavaScript string methods -/

/-- Boolean prefix test on lists (`listIsPrefixB needle haystack` is true
when `haystack` starts with `needle`). -/
def listIsPrefixB {α : Type} [DecidableEq α] : List α → List α → Bool
  | [], _ => true
  | _ :: _, [] => false
  | a :: as, b :: bs => a = b && listIsPrefixB as bs

/-- Boolean contiguous-sublist test on lists. -/
def listIsInfixB {α : Type} [DecidableEq α] (needle : List α) : List α → Bool
  | [] => needle.isEmpty
  | b :: bs => listIsPrefixB needle (b :: bs) || listIsInfixB needle bs

/-- JavaScript `s.toLowerCase()`, characterwise. -/
def strToLower (s : String) : String := ⟨s.data.map Char.toLower⟩

/-- JavaScript `s.trim()`: drop leading and trailing whitespace. -/
def strTrim (s : String) : String :=
  ⟨((s.data.dropWhile Char.isWhitespace).reverse.dropWhile Char.isWhitespace).reverse⟩

/-- JavaScript `s.includes(sub)`. -/
def strIncludes (s sub : String) : Bool := listIsInfixB sub.data s.data

/-- JavaScript `s.startsWith(pre)`. -/
def strStartsWith (s pre : String) : Bool := listIsPrefixB pre.data s.data

/-- JavaScript truthiness of an optional string: `undefined` and the empty
string are falsy. -/
def jsTruthy : Option String → Bool
  | none => false
  | some s => s ≠ ""

/-- JavaScript `Array.prototype.slice(start, start + cnt)` for
non-negative arguments. -/
def jsSlice {α : Type} (l : List α) (start cnt : Nat) : List α :=
  (l.drop start).take cnt

/-! ## Data model (§3 of the spec; the Mongo documents read by the code) -/

/-- A concept property (`concept.property[i]`). -/
structure Property where
  code : String
  valueString : Option String := none
  valueCode : Option String := none
  valueInteger : Option Int := none
deriving DecidableEq, Repr

/-- A CodeSystem concept. `display` is required (the code calls
`.toLowerCase()` on it unconditionally); `definition` and `property` may be
absent. -/
structure Concept where
  code : String
  display : String
  definition : Option String := none
  property : Option (List Property) := none
deriving DecidableEq, Repr

/-- A CodeSystem document. -/
structure CodeSystem where
  url : String
  name : String := ""
  version : String := ""
  concept : Option (List Concept) := none
deriving DecidableEq, Repr

/-- A ConceptMap mapping target (`element.target[i]`). -/
structure MappingTarget where
  code : String
  display : String := ""
  equivalence : String
  comment : Option String := none
deriving DecidableEq, Repr

/-- A ConceptMap mapping element (`group.element[i]`). -/
structure MappingElement where
  code : String
  target : Option (List MappingTarget) := none
deriving DecidableEq, Repr

/-- A ConceptMap group. -/
structure MappingGroup where
  source : String
  target : String := ""
  element : Option (List MappingElement) := none
deriving DecidableEq, Repr

/-- A ConceptMap document. -/
structure ConceptMap where
  sourceUri : String
  targetUri : String
  group : Option (List MappingGroup) := none
deriving DecidableEq, Repr

/-- A ValueSet `compose.include[i]` entry. -/
structure ValueSetInclude where
  system : Option String := none
deriving DecidableEq, Repr

/-- A ValueSet `compose`. The JSON field is named `include`; that word is
reserved in Lean, so the field is called `includeL` here. -/
structure ValueSetCompose where
  includeL : Option (List ValueSetInclude) := none
deriving DecidableEq, Repr

/-- A ValueSet document (fields copied into the expansion result). -/
structure ValueSet where
  url : String
  id : String := ""
  version : String := ""
  name : String := ""
  title : String := ""
  status : String := ""
  compose : Option ValueSetCompose := none
deriving DecidableEq, Repr

/-- The Concept Store as seen by `FHIRService`: the three Mongo
collections, with `findOne({...})` modelled as `List.find?` in natural
(insertion) order. -/
structure Database where
  codesystems : List CodeSystem := []
  conceptmaps : List ConceptMap := []
  valuesets : List ValueSet := []
deriving DecidableEq, Repr

/-! ## Concept Translator (`FHIRService.translateConcept`) -/

/-- A FHIR Coding (the `valueCoding` of a successful translate). -/
structure Coding where
  system : String
  code : String
  display : String
deriving DecidableEq, Repr

/-- The typed `Parameters` resource returned by `translateConcept`:
`failure msg` is the resource with `result=false` and `message=msg`;
`success equivalence coding` is the resource with `result=true` and a
`match` part holding the equivalence code and the target coding. -/
inductive TranslateResult where
  | failure (message : String)
  | success (equivalence : String) (coding : Coding)
deriving DecidableEq, Repr

/-- `FHIRService.translateConcept(sourceSystem, sourceCode, targetSystem)`
(fhirService.js lines 176–240). -/
def translateConcept (db : Database) (sourceSystem sourceCode targetSystem : String) :
    TranslateResult :=
  match db.conceptmaps.find? (fun m => m.sourceUri = sourceSystem && m.targetUri = targetSystem) with
  | none => .failure "No ConceptMap found for the specified systems"
  | some conceptMap =>
    let group := (conceptMap.group.getD []).find? (fun g => g.source = sourceSystem)
    let element := group.bind (fun g => (g.element.getD []).find? (fun e => e.code = sourceCode))
    let target := element.bind (fun e => (e.target.getD []).find? (fun t => t.equivalence = "equivalent"))
    match target with
    | none => .failure "No equivalent mapping found"
    | some t => .success t.equivalence ⟨targetSystem, t.code, t.display⟩

/-! ## Value Set Expander (`FHIRService.expandValueSet`) -/

/-- An item of `expansion.contains`: the code carries only `system`,
`code` and `display` into the expansion payload (no definition). -/
structure ContainsItem where
  system : String
  code : String
  display : String
deriving DecidableEq, Repr

/-- The expansion result (impure `identifier`/`timestamp` omitted). -/
structure ValueSetExpansionResult where
  id : String
  url : String
  version : String
  name : String
  title : String
  status : String
  total : Nat
  offset : Nat
  filterParam : Option String
  contains : List ContainsItem
deriving DecidableEq, Repr

/-- The filter block of `expandValueSet`: when the `filter` argument is
truthy, retain the concepts whose display, code or definition contains the
lowercased filter. -/
def applyExpandFilter (filter : Option String) (concepts : List Concept) : List Concept :=
  if jsTruthy filter then
    let filterTerm := strToLower (filter.getD "")
    concepts.filter (fun concept =>
      strIncludes (strToLower concept.display) filterTerm ||
      strIncludes (strToLower concept.code) filterTerm ||
      (match concept.definition with
       | some d => strIncludes (strToLower d) filterTerm
       | none => false))
  else concepts

/-- `FHIRService.expandValueSet(url, filter, count, offset)`
(fhirService.js lines 102–174). The source `throw`s on the three
not-found conditions; those throws are the `.error` results. -/
def expandValueSet (db : Database) (url : String) (filter : Option String)
    (count offset : Nat) : Except String ValueSetExpansionResult :=
  match db.valuesets.find? (fun v => v.url = url) with
  | none => .error "ValueSet not found"
  | some valueSet =>
    match (valueSet.compose.bind (fun c => c.includeL)).bind List.head? with
    | none => .error "ValueSet compose.include not found"
    | some include0 =>
      if jsTruthy include0.system then
        let sys := include0.system.getD ""
        match db.codesystems.find? (fun cs => cs.url = sys) with
        | none => .error "Referenced CodeSystem not found"
        | some codeSystem =>
          let concepts := applyExpandFilter filter (codeSystem.concept.getD [])
          let total := concepts.length
          let page := jsSlice concepts offset count
          .ok { id := valueSet.id, url := valueSet.url, version := valueSet.version,
                name := valueSet.name, title := valueSet.title, status := valueSet.status,
                total := total, offset := offset,
                filterParam := if jsTruthy filter then some (filter.getD "") else none,
                contains := page.map (fun c => ⟨sys, c.code, c.display⟩) }
      else .error "ValueSet compose.include not found"

/-! ## Search Index (`SearchService`) -/

/-- One resolved mapping attached to a `SearchEntry` by
`enhanceWithMappings`. -/
structure MappingRecord where
  targetSystem : String
  targetCode : String
  targetDisplay : String
  equivalence : String
  comment : Option String
deriving DecidableEq, Repr

/-- The derived search-index record (`createSearchEntry`'s result shape). -/
structure SearchEntry where
  system : String
  systemType : String
  systemName : String
  code : String
  display : String
  definition : String
  searchTerms : List String
  properties : List Property
  mappings : List MappingRecord
deriving DecidableEq, Repr

/-- The system-type classification of `createSearchEntry` (substring
checks on the CodeSystem url). -/
def systemTypeOf (url : String) : String :=
  if strIncludes url "namaste" then "namaste"
  else if strIncludes url "traditional-medicine" then "icd11-tm2"
  else if strIncludes url "icd" then "icd11-bio"
  else "unknown"

/-- Helper for `dedupFirst`: drop the elements already seen. -/
def dedupFirstAux {α : Type} [DecidableEq α] (seen : List α) : List α → List α
  | [] => []
  | x :: xs => if x ∈ seen then dedupFirstAux seen xs else x :: dedupFirstAux (x :: seen) xs

/-- Order-preserving deduplication keeping the first occurrence —
JavaScript `[...new Set(l)]`. -/
def dedupFirst {α : Type} [DecidableEq α] (l : List α) : List α :=
  dedupFirstAux [] l

/-- The search-term list of a concept before deduplication: lowercase
code, display, definition (when truthy), then the string-valued property
values in order. -/
def rawSearchTerms (concept : Concept) : List String :=
  [strToLower concept.code, strToLower concept.display] ++
    (if jsTruthy concept.definition then [strToLower (concept.definition.getD "")] else []) ++
    (concept.property.getD []).foldl (fun acc prop =>
      acc ++ (if jsTruthy prop.valueString then [strToLower (prop.valueString.getD "")] else []) ++
        (if jsTruthy prop.valueCode then [strToLower (prop.valueCode.getD "")] else [])) []

/-- `SearchService.createSearchEntry(concept, codeSystem)`
(searchService.js). -/
def createSearchEntry (concept : Concept) (codeSystem : CodeSystem) : SearchEntry :=
  { system := codeSystem.url
    systemType := systemTypeOf codeSystem.url
    systemName := codeSystem.name
    code := concept.code
    display := concept.display
    definition := concept.definition.getD ""
    searchTerms := dedupFirst (rawSearchTerms concept)
    properties := concept.property.getD []
    mappings := [] }

/-- The in-memory index: a JavaScript `Map` in insertion order. -/
abbrev SearchIndex := List (String × SearchEntry)

/-- `Map.prototype.set`: overwrite in place when the key exists (keeping
its position), append otherwise. -/
def mapSet (idx : SearchIndex) (k : String) (v : SearchEntry) : SearchIndex :=
  if idx.any (fun p => p.1 = k) then
    idx.map (fun p => if p.1 = k then (k, v) else p)
  else idx ++ [(k, v)]

/-- `Map.prototype.get`. -/
def mapGet (idx : SearchIndex) (k : String) : Option SearchEntry :=
  (idx.find? (fun p => p.1 = k)).map Prod.snd

/-- The Concept Store and cache as seen by `SearchService.buildSearchIndex`:
collection reads may fail (a Mongo read error is the `.error` case), and the
Redis cache may hold a serialized index (both `search-index` and
`search-index-version` present collapses to `some`). -/
structure StoreState where
  cache : Option SearchIndex := none
  codesystems : Except String (List CodeSystem) := .ok []
  conceptmaps : Except String (List ConceptMap) := .ok []

/-- The first pass of `buildSearchIndex`: one `SearchEntry` per concept of
every CodeSystem, keyed `` `${codeSystem.url}|${concept.code}` ``. -/
def conceptIndexOf (codeSystems : List CodeSystem) : SearchIndex :=
  codeSystems.foldl (fun idx codeSystem =>
    match codeSystem.concept with
    | none => idx
    | some concepts => concepts.foldl (fun idx concept =>
        mapSet idx (codeSystem.url ++ "|" ++ concept.code) (createSearchEntry concept codeSystem)) idx) []

/-- `element.target.map(target => ({...}))` inside `enhanceWithMappings`. -/
def resolveTargets (group : MappingGroup) (targets : List MappingTarget) : List MappingRecord :=
  targets.map (fun t => ⟨group.target, t.code, t.display, t.equivalence, t.comment⟩)

/-- The body of the innermost `enhanceWithMappings` loop: look the element's
source key up and, when both the entry and `element.target` exist, assign
(overwrite) the entry's `mappings`. -/
def applyElement (idx : SearchIndex) (group : MappingGroup) (element : MappingElement) :
    SearchIndex :=
  let sourceKey := group.source ++ "|" ++ element.code
  match mapGet idx sourceKey, element.target with
  | some sourceEntry, some targets =>
      mapSet idx sourceKey { sourceEntry with mappings := resolveTargets group targets }
  | _, _ => idx

/-- The `for (const element of group.element)` loop (skipped when
`group.element` is absent). -/
def applyGroup (idx : SearchIndex) (group : MappingGroup) : SearchIndex :=
  match group.element with
  | none => idx
  | some elements => elements.foldl (fun idx e => applyElement idx group e) idx

/-- The `for (const group of conceptMap.group)` loop (skipped when
`conceptMap.group` is absent). -/
def applyMap (idx : SearchIndex) (conceptMap : ConceptMap) : SearchIndex :=
  match conceptMap.group with
  | none => idx
  | some groups => groups.foldl applyGroup idx

/-- The loop over all ConceptMaps. -/
def enhanceMaps (maps : List ConceptMap) (idx : SearchIndex) : SearchIndex :=
  maps.foldl applyMap idx

/-- `SearchService.enhanceWithMappings()`: the whole body is wrapped in
`try/catch` whose catch only logs, so a ConceptMaps read error leaves the
index unchanged instead of propagating. -/
def enhanceWithMappings (store : StoreState) (idx : SearchIndex) : SearchIndex :=
  match store.conceptmaps with
  | .error _ => idx
  | .ok maps => enhanceMaps maps idx

/-- `SearchService.buildSearchIndex()`: cache hit loads the cached index;
otherwise the concept pass runs (a CodeSystems read error propagates out of
the `try` as a thrown error) followed by the mapping pass. -/
def buildSearchIndex (store : StoreState) : Except String SearchIndex :=
  match store.cache with
  | some cached => .ok cached
  | none =>
    match store.codesystems with
    | .error e => .error e
    | .ok codeSystems => .ok (enhanceWithMappings store (conceptIndexOf codeSystems))

/-! ## Relevance Scorer and Fuzzy Matcher -/

/-- One inner iteration of the Levenshtein matrix: given the current row
character `c` of `str2`, the remaining characters of `str1`, the tail of
the previous row starting at column `j - 1`, and the value just computed
at column `j - 1`, produce the rest of the current row: the matrix cell is
the diagonal on a character match, else `1 + min(diagonal, up, left)`. -/
def levStep (c : Char) : List Char → List Nat → Nat → List Nat
  | [], _, _ => []
  | _ :: _, [], _ => []
  | x :: xs, pPrev :: pRest, qPrev =>
    let q := if x = c then pPrev else 1 + min pPrev (min (pRest.headD 0) qPrev)
    q :: levStep c xs pRest q

/-- `SearchService.levenshteinDistance(str1, str2)`: the classic
dynamic-programming edit distance; the matrix is built row by row exactly
as in the source (`matrix[0][j] = j`, `matrix[i][0] = i`, then the
match/mismatch recurrence), and the result is `matrix[str2.length][str1.length]`. -/
def levenshteinDistance (str1 str2 : List Char) : Nat :=
  let row0 := List.range (str1.length + 1)
  let lastRow := str2.foldl (fun row c =>
    let q0 := row.headD 0 + 1
    q0 :: levStep c str1 row q0) row0
  lastRow.getLastD 0

/-- JavaScript `Math.max` on rationals, written so that it evaluates by
kernel reduction. -/
def jsMaxQ (a b : ℚ) : ℚ := if a ≤ b then b else a

/-- JavaScript `Math.max` on naturals. -/
def jsMaxN (a b : Nat) : Nat := if a ≤ b then b else a

/-- `SearchService.calculateFuzzyScore(searchTerm, entry)`: best normalized
similarity `1 - distance / max(len, len)` over `{display, code}`
(lowercased), as an exact rational. -/
def calculateFuzzyScore (searchTerm : String) (entry : SearchEntry) : ℚ :=
  [strToLower entry.display, strToLower entry.code].foldl (fun maxScore target =>
    let distance := levenshteinDistance searchTerm.data target.data
    let maxLength := jsMaxN searchTerm.length target.length
    let similarity := 1 - (distance : ℚ) / (maxLength : ℚ)
    jsMaxQ maxScore similarity) 0

/-- The per-term condition of the `entry.searchTerms.forEach` scoring loop:
the term contains the query and is neither the (lowercased) code nor the
(lowercased) display. -/
def termPred (searchTerm lowCode lowDisp : String) (term : String) : Bool :=
  strIncludes term searchTerm && term != lowCode && term != lowDisp

/-- `calculateRelevanceScore`, first statement block: `score` after the
exact/substring code match (+100 / +50). -/
def scoreAfterCode (searchTerm : String) (entry : SearchEntry) : Nat :=
  let score : Nat := 0
  if strToLower entry.code = searchTerm then score + 100
  else if strIncludes (strToLower entry.code) searchTerm then score + 50
  else score

/-- `score` after the display block (+80 exact / +60 prefix / +40
substring). -/
def scoreAfterDisplay (searchTerm : String) (entry : SearchEntry) : Nat :=
  let score := scoreAfterCode searchTerm entry
  if strToLower entry.display = searchTerm then score + 80
  else if strStartsWith (strToLower entry.display) searchTerm then score + 60
  else if strIncludes (strToLower entry.display) searchTerm then score + 40
  else score

/-- `score` after the definition block (+20). -/
def scoreAfterDefinition (searchTerm : String) (entry : SearchEntry) : Nat :=
  let score := scoreAfterDisplay searchTerm entry
  if entry.definition ≠ "" ∧ strIncludes (strToLower entry.definition) searchTerm then score + 20
  else score

/-- `score` after the `entry.searchTerms.forEach` loop (+10 per
qualifying term): the value the source's `score` variable holds when the
fuzzy gate `if (fuzzy && score === 0)` is evaluated. -/
def scoreAfterTerms (searchTerm : String) (entry : SearchEntry) : Nat :=
  entry.searchTerms.foldl (fun s term =>
      if termPred searchTerm (strToLower entry.code) (strToLower entry.display) term then s + 10 else s)
    (scoreAfterDefinition searchTerm entry)

/-- `score` after the fuzzy-fallback block. -/
def scoreAfterFuzzy (searchTerm : String) (entry : SearchEntry) (fuzzy : Bool) : Nat :=
  let score := scoreAfterTerms searchTerm entry
  if fuzzy ∧ score = 0 then
    let fuzzyScore := calculateFuzzyScore searchTerm entry
    if (7 : ℚ)/10 < fuzzyScore then score + (⌊fuzzyScore * 30⌋).toNat else score
  else score

/-- `SearchService.calculateRelevanceScore(searchTerm, entry, fuzzy)`
(searchService.js lines 581–628): the step defs above mirror the
function's sequential accumulation of `score` block by block; this final
step adds the NAMASTE boost and returns. -/
def calculateRelevanceScore (searchTerm : String) (entry : SearchEntry) (fuzzy : Bool) : Nat :=
  let score := scoreAfterFuzzy searchTerm entry fuzzy
  if entry.systemType = "namaste" then score + 5 else score

/-- `calculateRelevanceScore` instrumented with a flag recording whether
the fuzzy matcher (`calculateFuzzyScore`, hence the Levenshtein distance)
is invoked during the computation: the flag is set exactly when control
enters the `if (fuzzy && score === 0)` branch, the only call site of
`calculateFuzzyScore`. -/
def calculateRelevanceScoreInstr (searchTerm : String) (entry : SearchEntry) (fuzzy : Bool) :
    Nat × Bool :=
  let score := scoreAfterTerms searchTerm entry
  let scoreInvoked :=
    if fuzzy ∧ score = 0 then
      let fuzzyScore := calculateFuzzyScore searchTerm entry
      (if (7 : ℚ)/10 < fuzzyScore then score + (⌊fuzzyScore * 30⌋).toNat else score, true)
    else (score, false)
  (if entry.systemType = "namaste" then scoreInvoked.1 + 5 else scoreInvoked.1, scoreInvoked.2)

/-! ## Search operation (`SearchService.searchTerms`) -/

/-- The options object of `searchTerms` with the source's defaults. -/
structure SearchOptions where
  systemFilter : Option String := none
  systemType : Option String := none
  limit : Nat := 20
  fuzzy : Bool := false
deriving DecidableEq, Repr

/-- The two `continue` pre-filters of the scan loop. -/
def skipEntry (opts : SearchOptions) (entry : SearchEntry) : Bool :=
  (jsTruthy opts.systemFilter && !(strIncludes entry.system (opts.systemFilter.getD ""))) ||
  (jsTruthy opts.systemType && entry.systemType != opts.systemType.getD "")

/-- The `for (const [key, entry] of this.searchIndex)` loop of
`searchTerms`: score each surviving entry, collect the positive scores, and
`break` once `limit * 3` results are collected (the break check is skipped
by `continue`). -/
def scanIndex (searchTerm : String) (opts : SearchOptions) :
    SearchIndex → List (SearchEntry × Nat) → List (SearchEntry × Nat)
  | [], results => results
  | (_, entry) :: rest, results =>
    if skipEntry opts entry then scanIndex searchTerm opts rest results
    else
      let score := calculateRelevanceScore searchTerm entry opts.fuzzy
      let results := if 0 < score then results ++ [(entry, score)] else results
      if opts.limit * 3 ≤ results.length then results
      else scanIndex searchTerm opts rest results

/-- Stable insertion for the descending-by-score sort (JavaScript's stable
`Array.prototype.sort` with comparator `(a, b) => b.score - a.score`). -/
def insertByScoreDesc (x : SearchEntry × Nat) :
    List (SearchEntry × Nat) → List (SearchEntry × Nat)
  | [] => [x]
  | y :: ys => if y.2 ≤ x.2 then x :: y :: ys else y :: insertByScoreDesc x ys

/-- Stable sort by score descending. -/
def sortByScoreDesc : List (SearchEntry × Nat) → List (SearchEntry × Nat)
  | [] => []
  | x :: xs => insertByScoreDesc x (sortByScoreDesc xs)

/-- The search result bundle, reduced to the fields the claims are about:
the reported `total`, the returned scored entries, the raw query echoed in
the self link, and the `issue` message of the empty bundle. -/
structure SearchBundle where
  total : Nat
  results : List (SearchEntry × Nat)
  linkQuery : Option String
  issue : Option String
deriving DecidableEq, Repr

/-- `SearchService.createSearchBundle(results, query, total)`. -/
def createSearchBundle (results : List (SearchEntry × Nat)) (query : String) (total : Nat) :
    SearchBundle :=
  { total := total, results := results, linkQuery := some query, issue := none }

/-- `SearchService.createEmptySearchBundle(message)`. -/
def createEmptySearchBundle (message : String) : SearchBundle :=
  { total := 0, results := [], linkQuery := none, issue := some message }

/-- `SearchService.searchTerms(query, options)` (searchService.js lines
529–579): lowercase and trim the query, reject short queries with the typed
empty bundle, scan, sort descending, truncate to `limit`, and report the
pre-truncation count as `total`. -/
def searchTermsOp (idx : SearchIndex) (query : String) (opts : SearchOptions) : SearchBundle :=
  let searchTerm := strTrim (strToLower query)
  if searchTerm.length < 2 then createEmptySearchBundle "Query too short"
  else
    let results := sortByScoreDesc (scanIndex searchTerm opts idx [])
    let limitedResults := results.take opts.limit
    createSearchBundle limitedResults query results.length

/-! ## Decomposition of the relevance score into its additive parts -/

/-- The code block of the scorer: +100 exact, +50 substring. -/
def codeScore (searchTerm : String) (entry : SearchEntry) : Nat :=
  if strToLower entry.code = searchTerm then 100
  else if strIncludes (strToLower entry.code) searchTerm then 50
  else 0

/-- The display block: +80 exact, else +60 prefix, else +40 substring. -/
def dispScore (searchTerm : String) (entry : SearchEntry) : Nat :=
  if strToLower entry.display = searchTerm then 80
  else if strStartsWith (strToLower entry.display) searchTerm then 60
  else if strIncludes (strToLower entry.display) searchTerm then 40
  else 0

/-- The definition block: +20 when the (truthy) definition contains the
query. -/
def defScore (searchTerm : String) (entry : SearchEntry) : Nat :=
  if entry.definition ≠ "" ∧ strIncludes (strToLower entry.definition) searchTerm then 20 else 0

/-- The search-terms loop: +10 per qualifying term. -/
def termScore (searchTerm : String) (entry : SearchEntry) : Nat :=
  10 * entry.searchTerms.countP (termPred searchTerm (strToLower entry.code) (strToLower entry.display))

/-- The value of the source's `score` variable at the fuzzy gate: the
text-match score accumulated from the code, display, definition and
search-term blocks. -/
def textMatchScore (searchTerm : String) (entry : SearchEntry) : Nat :=
  codeScore searchTerm entry + dispScore searchTerm entry + defScore searchTerm entry +
    termScore searchTerm entry

/-- The fuzzy block's contribution to the final score. -/
def fuzzyAdd (searchTerm : String) (entry : SearchEntry) (fuzzy : Bool) : Nat :=
  if fuzzy ∧ textMatchScore searchTerm entry = 0 then
    if (7 : ℚ)/10 < calculateFuzzyScore searchTerm entry then
      (⌊calculateFuzzyScore searchTerm entry * 30⌋).toNat
    else 0
  else 0

/-- The NAMASTE boost. -/
def namasteBoost (entry : SearchEntry) : Nat :=
  if entry.systemType = "namaste" then 5 else 0

lemma addChainOne (P : Prop) [Decidable P] (s x : Nat) :
    (if P then s + x else s) = s + (if P then x else 0) := by
  split_ifs <;> omega

lemma addChainTwo (P Q : Prop) [Decidable P] [Decidable Q] (s x y : Nat) :
    (if P then s + x else if Q then s + y else s) =
      s + (if P then x else if Q then y else 0) := by
  split_ifs <;> omega

lemma addChainThree (P Q R : Prop) [Decidable P] [Decidable Q] [Decidable R] (s x y z : Nat) :
    (if P then s + x else if Q then s + y else if R then s + z else s) =
      s + (if P then x else if Q then y else if R then z else 0) := by
  split_ifs <;> omega

lemma addChainFuzzy (G R : Prop) [Decidable G] [Decidable R] (s n : Nat) :
    (if G then (if R then s + n else s) else s) =
      s + (if G then (if R then n else 0) else 0) := by
  split_ifs <;> omega

lemma foldl_add_ten (p : String → Bool) (l : List String) (s : Nat) :
    l.foldl (fun acc t => if p t then acc + 10 else acc) s = s + 10 * l.countP p := by
  induction l generalizing s with
  | nil => simp [List.countP_nil]
  | cons a l ih =>
    simp only [List.foldl_cons, List.countP_cons, ih]
    by_cases h : p a
    · simp [h]
      omega
    · simp [h]

lemma scoreAfterCode_eq (searchTerm : String) (entry : SearchEntry) :
    scoreAfterCode searchTerm entry = codeScore searchTerm entry := by
  simp only [scoreAfterCode, codeScore, Nat.zero_add]

lemma scoreAfterDisplay_eq (searchTerm : String) (entry : SearchEntry) :
    scoreAfterDisplay searchTerm entry =
      codeScore searchTerm entry + dispScore searchTerm entry := by
  simp only [scoreAfterDisplay]
  rw [addChainThree, scoreAfterCode_eq]
  simp only [dispScore]

lemma scoreAfterDefinition_eq (searchTerm : String) (entry : SearchEntry) :
    scoreAfterDefinition searchTerm entry =
      codeScore searchTerm entry + dispScore searchTerm entry + defScore searchTerm entry := by
  simp only [scoreAfterDefinition]
  rw [addChainOne, scoreAfterDisplay_eq]
  simp only [defScore]

/-- At the fuzzy gate, the source's `score` variable holds exactly the
text-match score. -/
lemma scoreAfterTerms_eq (searchTerm : String) (entry : SearchEntry) :
    scoreAfterTerms searchTerm entry = textMatchScore searchTerm entry := by
  simp only [scoreAfterTerms]
  rw [foldl_add_ten, scoreAfterDefinition_eq]
  simp only [textMatchScore, termScore]

lemma scoreAfterFuzzy_eq (searchTerm : String) (entry : SearchEntry) (fuzzy : Bool) :
    scoreAfterFuzzy searchTerm entry fuzzy =
      textMatchScore searchTerm entry + fuzzyAdd searchTerm entry fuzzy := by
  simp only [scoreAfterFuzzy]
  rw [addChainFuzzy, scoreAfterTerms_eq]
  simp only [fuzzyAdd]

/-- The relevance score is the sum of its blocks' contributions. -/
lemma calculateRelevanceScore_decomp (searchTerm : String) (entry : SearchEntry) (fuzzy : Bool) :
    calculateRelevanceScore searchTerm entry fuzzy =
      textMatchScore searchTerm entry + fuzzyAdd searchTerm entry fuzzy + namasteBoost entry := by
  simp only [calculateRelevanceScore]
  rw [addChainOne, scoreAfterFuzzy_eq]
  simp only [namasteBoost]

/-- The instrumented scorer computes the same score, and its flag records
exactly "fuzzy mode on and the accumulated text-match score is zero". -/
lemma calculateRelevanceScoreInstr_eq (searchTerm : String) (entry : SearchEntry) (fuzzy : Bool) :
    calculateRelevanceScoreInstr searchTerm entry fuzzy =
      (calculateRelevanceScore searchTerm entry fuzzy,
        fuzzy && decide (textMatchScore searchTerm entry = 0)) := by
  rw [calculateRelevanceScore_decomp]
  simp only [calculateRelevanceScoreInstr, fuzzyAdd, namasteBoost, scoreAfterTerms_eq]
  split_ifs <;> simp_all

/-! ## Deduplication lemmas (for the search-term set) -/

lemma dedupFirstAux_mem {α : Type} [DecidableEq α] (a : α) :
    ∀ (l seen : List α), a ∈ dedupFirstAux seen l ↔ a ∈ l ∧ a ∉ seen := by
  intro l
  induction l with
  | nil => simp [dedupFirstAux]
  | cons x xs ih =>
    intro seen
    rw [dedupFirstAux]
    split_ifs with hx
    · rw [ih]
      constructor
      · exact fun ⟨h1, h2⟩ => ⟨List.mem_cons_of_mem x h1, h2⟩
      · rintro ⟨h1, h2⟩
        rcases List.mem_cons.mp h1 with rfl | h1
        · exact absurd hx h2
        · exact ⟨h1, h2⟩
    · simp only [List.mem_cons, ih]
      by_cases ha : a = x <;> simp [ha, hx]

lemma dedupFirst_mem {α : Type} [DecidableEq α] (a : α) (l : List α) :
    a ∈ dedupFirst l ↔ a ∈ l := by
  rw [dedupFirst, dedupFirstAux_mem]
  simp

lemma dedupFirstAux_nodup {α : Type} [DecidableEq α] :
    ∀ (l seen : List α), (dedupFirstAux seen l).Nodup := by
  intro l
  induction l with
  | nil => intro seen; simp [dedupFirstAux]
  | cons x xs ih =>
    intro seen
    rw [dedupFirstAux]
    split_ifs with hx
    · exact ih seen
    · refine List.nodup_cons.mpr ⟨fun hmem => ?_, ih (x :: seen)⟩
      have := (dedupFirstAux_mem x xs (x :: seen)).mp hmem
      simp at this

lemma dedupFirst_nodup {α : Type} [DecidableEq α] (l : List α) : (dedupFirst l).Nodup :=
  dedupFirstAux_nodup l []

lemma dedupFirst_toFinset {α : Type} [DecidableEq α] (l : List α) :
    (dedupFirst l).toFinset = l.toFinset := by
  ext a
  simp [List.mem_toFinset, dedupFirst_mem]

/-- `countP` over the deduplicated list counts the distinct matching
values. -/
lemma countP_dedupFirst {α : Type} [DecidableEq α] (p : α → Bool) (l : List α) :
    (dedupFirst l).countP p = (l.toFinset.filter (fun a => p a)).card := by
  rw [List.countP_eq_length_filter, ← List.toFinset_card_of_nodup ((dedupFirst_nodup l).filter p),
    List.toFinset_filter, dedupFirst_toFinset]

/-! ## Lemmas about the search-term list of an entry -/

/-- The search terms of a concept other than its (lowercased) code: the
display, the truthy definition, and the string-valued properties. -/
def commonTerms (concept : Concept) : List String :=
  strToLower concept.display ::
    ((if jsTruthy concept.definition then [strToLower (concept.definition.getD "")] else []) ++
      (concept.property.getD []).foldl (fun acc prop =>
        acc ++ (if jsTruthy prop.valueString then [strToLower (prop.valueString.getD "")] else []) ++
          (if jsTruthy prop.valueCode then [strToLower (prop.valueCode.getD "")] else [])) [])

lemma rawSearchTerms_eq_cons (concept : Concept) :
    rawSearchTerms concept = strToLower concept.code :: commonTerms concept := by
  simp [rawSearchTerms, commonTerms]

/-- The key counting step behind score monotonicity: an entry whose code
is exactly the query can lose at most one +10 search-term contribution
(the term equal to the query itself) relative to an entry whose code
merely contains the query, for the same other terms. -/
lemma termFilter_card_le (q c2L dispL : String) (S : Finset String) :
    (Finset.filter (fun t => termPred q c2L dispL t = true) (insert c2L S)).card ≤
      (Finset.filter (fun t => termPred q q dispL t = true) (insert q S)).card + 1 := by
  have hsub : Finset.filter (fun t => termPred q c2L dispL t = true) (insert c2L S) ⊆
      insert q (Finset.filter (fun t => termPred q q dispL t = true) (insert q S)) := by
    intro t ht
    rw [Finset.mem_filter] at ht
    obtain ⟨htmem, hp⟩ := ht
    simp only [termPred, Bool.and_eq_true, bne_iff_ne, ne_eq] at hp
    obtain ⟨⟨hinc, hnec⟩, hned⟩ := hp
    have htS : t ∈ S := by
      rcases Finset.mem_insert.mp htmem with h | h
      · exact absurd h hnec
      · exact h
    by_cases hq : t = q
    · exact Finset.mem_insert.mpr (Or.inl hq)
    · refine Finset.mem_insert.mpr (Or.inr ?_)
      rw [Finset.mem_filter]
      refine ⟨Finset.mem_insert.mpr (Or.inr htS), ?_⟩
      simp only [termPred, Bool.and_eq_true, bne_iff_ne, ne_eq]
      exact ⟨⟨hinc, hq⟩, hned⟩
  calc (Finset.filter (fun t => termPred q c2L dispL t = true) (insert c2L S)).card
      ≤ (insert q (Finset.filter (fun t => termPred q q dispL t = true) (insert q S))).card :=
        Finset.card_le_card hsub
    _ ≤ (Finset.filter (fun t => termPred q q dispL t = true) (insert q S)).card + 1 :=
        Finset.card_insert_le _ _

/-- The search-term contribution of a built entry, as a count of distinct
qualifying terms. -/
lemma termScore_createSearchEntry (q : String) (concept : Concept) (codeSystem : CodeSystem) :
    termScore q (createSearchEntry concept codeSystem) =
      10 * (Finset.filter
        (fun t => termPred q (strToLower concept.code) (strToLower concept.display) t = true)
        (insert (strToLower concept.code) (commonTerms concept).toFinset)).card := by
  simp only [termScore, createSearchEntry, countP_dedupFirst, rawSearchTerms_eq_cons,
    List.toFinset_cons]

/-! ## Claim C6 -/

/-- C6: for every query of length at least 2 and every pair of entries
built from concepts agreeing on display, definition and properties, and
from CodeSystems with the same system type, an entry whose code
(case-insensitively) exactly equals the query scores strictly higher than
one whose code merely contains the query as a proper substring. -/
theorem c6_exact_code_beats_code_substring
    (q : String) (c1 c2 : Concept) (cs1 cs2 : CodeSystem) (fz : Bool)
    (_hq : 2 ≤ q.length)
    (hdisp : c1.display = c2.display)
    (hdef : c1.definition = c2.definition)
    (hprop : c1.property = c2.property)
    (hsys : systemTypeOf cs1.url = systemTypeOf cs2.url)
    (h1 : strToLower c1.code = q)
    (h2 : strIncludes (strToLower c2.code) q = true)
    (h2ne : strToLower c2.code ≠ q) :
    calculateRelevanceScore q (createSearchEntry c2 cs2) fz <
      calculateRelevanceScore q (createSearchEntry c1 cs1) fz := by
  have hcode1 : codeScore q (createSearchEntry c1 cs1) = 100 := by
    simp [codeScore, createSearchEntry, h1]
  have hcode2 : codeScore q (createSearchEntry c2 cs2) = 50 := by
    simp [codeScore, createSearchEntry, h2, h2ne]
  have hdispEq : dispScore q (createSearchEntry c1 cs1) =
      dispScore q (createSearchEntry c2 cs2) := by
    simp [dispScore, createSearchEntry, hdisp]
  have hdefEq : defScore q (createSearchEntry c1 cs1) =
      defScore q (createSearchEntry c2 cs2) := by
    simp [defScore, createSearchEntry, hdef]
  have hboostEq : namasteBoost (createSearchEntry c1 cs1) =
      namasteBoost (createSearchEntry c2 cs2) := by
    simp [namasteBoost, createSearchEntry, hsys]
  have hterm1 := termScore_createSearchEntry q c1 cs1
  rw [h1, hdisp] at hterm1
  have hterm2 := termScore_createSearchEntry q c2 cs2
  have hcommon : commonTerms c2 = commonTerms c1 := by
    simp only [commonTerms, ← hdisp, ← hdef, ← hprop]
  rw [hcommon] at hterm2
  have hkey := termFilter_card_le q (strToLower c2.code) (strToLower c2.display) (commonTerms c1).toFinset
  have hf1 : fuzzyAdd q (createSearchEntry c1 cs1) fz = 0 := by
    have hne : textMatchScore q (createSearchEntry c1 cs1) ≠ 0 := by
      rw [textMatchScore, hcode1]; omega
    simp [fuzzyAdd, hne]
  have hf2 : fuzzyAdd q (createSearchEntry c2 cs2) fz = 0 := by
    have hne : textMatchScore q (createSearchEntry c2 cs2) ≠ 0 := by
      rw [textMatchScore, hcode2]; omega
    simp [fuzzyAdd, hne]
  rw [calculateRelevanceScore_decomp, calculateRelevanceScore_decomp, hf1, hf2,
    textMatchScore, textMatchScore, hcode1, hcode2, hterm1, hterm2, hdispEq, hdefEq, hboostEq]
  omega

/-- Witness for C6 at a concrete pair of concepts. -/
theorem c6_exact_code_beats_code_substring_witness :
    calculateRelevanceScore "ab" (createSearchEntry ⟨"xaby", "d", none, none⟩ ⟨"u", "", "", none⟩)
        false <
      calculateRelevanceScore "ab" (createSearchEntry ⟨"AB", "d", none, none⟩ ⟨"u", "", "", none⟩)
        false :=
  c6_exact_code_beats_code_substring "ab" ⟨"AB", "d", none, none⟩ ⟨"xaby", "d", none, none⟩
    ⟨"u", "", "", none⟩ ⟨"u", "", "", none⟩ false (by decide) rfl rfl rfl rfl (by decide)
    (by decide) (by decide)

/-! ## Claim C7 -/

/-- C7: the display field contributes exactly one of 80 / 60 / 40 / 0 to
the relevance score — 80 iff the display equals the query, else 60 iff it
starts with the query, else 40 iff it contains it, else 0 — and the total
score decomposes so that the display contribution appears exactly once,
never as a sum of several display increments. -/
theorem c7_display_contribution_exclusive (q : String) (e : SearchEntry) (fz : Bool) :
    calculateRelevanceScore q e fz =
      codeScore q e + dispScore q e + defScore q e + termScore q e + fuzzyAdd q e fz +
        namasteBoost e ∧
    (dispScore q e = 80 ↔ strToLower e.display = q) ∧
    (dispScore q e = 60 ↔ strToLower e.display ≠ q ∧ strStartsWith (strToLower e.display) q = true) ∧
    (dispScore q e = 40 ↔ strToLower e.display ≠ q ∧ strStartsWith (strToLower e.display) q = false ∧
      strIncludes (strToLower e.display) q = true) ∧
    (dispScore q e = 0 ↔ strToLower e.display ≠ q ∧ strStartsWith (strToLower e.display) q = false ∧
      strIncludes (strToLower e.display) q = false) := by
  refine ⟨?_, ?_, ?_, ?_, ?_⟩
  · rw [calculateRelevanceScore_decomp, textMatchScore]
  all_goals
    unfold dispScore
    split_ifs <;> simp_all

/-! ## Claim C2 -/

/-- C2: for every query of length at least 2, the fuzzy matcher is invoked
by the scorer exactly when the caller enabled fuzzy mode and the
(pre-boost) relevance score accumulated from the text-match blocks — the
value of the source's `score` variable at the `if (fuzzy && score === 0)`
gate — is zero; in particular it is never invoked when that score is
positive, and when it is invoked and the best similarity exceeds 0.7 it
contributes `floor(similarity * 30)` to the final score. -/
theorem c2_fuzzy_fallback_gating (q : String) (e : SearchEntry) (fz : Bool)
    (_hq : 2 ≤ q.length) :
    ((calculateRelevanceScoreInstr q e fz).1 = calculateRelevanceScore q e fz) ∧
    ((calculateRelevanceScoreInstr q e fz).2 = true ↔ fz = true ∧ textMatchScore q e = 0) ∧
    (0 < textMatchScore q e → (calculateRelevanceScoreInstr q e fz).2 = false) ∧
    (fz = true → textMatchScore q e = 0 →
      (7 : ℚ)/10 < calculateFuzzyScore q e →
      calculateRelevanceScore q e true =
        calculateRelevanceScore q e false + (⌊calculateFuzzyScore q e * 30⌋).toNat) := by
  rw [calculateRelevanceScoreInstr_eq]
  refine ⟨rfl, by simp, ?_, ?_⟩
  · intro h
    simp [Nat.pos_iff_ne_zero.mp h]
  · intro _ h0 hsim
    rw [calculateRelevanceScore_decomp, calculateRelevanceScore_decomp]
    simp [fuzzyAdd, h0, hsim]
    omega

/-- Witness for C2 at the spec's example: query `"vata"` against the entry
built from `{code: "VAT1", display: "Vata disorder"}` scores positively via
the display prefix match, so the fuzzy matcher must not run. -/
theorem c2_fuzzy_fallback_gating_witness :
    ((calculateRelevanceScoreInstr "vata"
        (createSearchEntry ⟨"VAT1", "Vata disorder", none, none⟩ ⟨"http://x/namaste", "", "", none⟩)
        true).1 =
      calculateRelevanceScore "vata"
        (createSearchEntry ⟨"VAT1", "Vata disorder", none, none⟩ ⟨"http://x/namaste", "", "", none⟩)
        true) ∧
    ((calculateRelevanceScoreInstr "vata"
        (createSearchEntry ⟨"VAT1", "Vata disorder", none, none⟩ ⟨"http://x/namaste", "", "", none⟩)
        true).2 = true ↔ true = true ∧
      textMatchScore "vata"
        (createSearchEntry ⟨"VAT1", "Vata disorder", none, none⟩ ⟨"http://x/namaste", "", "", none⟩)
        = 0) ∧
    (0 < textMatchScore "vata"
        (createSearchEntry ⟨"VAT1", "Vata disorder", none, none⟩ ⟨"http://x/namaste", "", "", none⟩) →
      (calculateRelevanceScoreInstr "vata"
        (createSearchEntry ⟨"VAT1", "Vata disorder", none, none⟩ ⟨"http://x/namaste", "", "", none⟩)
        true).2 = false) ∧
    (true = true →
      textMatchScore "vata"
        (createSearchEntry ⟨"VAT1", "Vata disorder", none, none⟩ ⟨"http://x/namaste", "", "", none⟩)
        = 0 →
      (7 : ℚ)/10 < calculateFuzzyScore "vata"
        (createSearchEntry ⟨"VAT1", "Vata disorder", none, none⟩ ⟨"http://x/namaste", "", "", none⟩) →
      calculateRelevanceScore "vata"
        (createSearchEntry ⟨"VAT1", "Vata disorder", none, none⟩ ⟨"http://x/namaste", "", "", none⟩)
        true =
        calculateRelevanceScore "vata"
          (createSearchEntry ⟨"VAT1", "Vata disorder", none, none⟩
            ⟨"http://x/namaste", "", "", none⟩) false +
          (⌊calculateFuzzyScore "vata"
            (createSearchEntry ⟨"VAT1", "Vata disorder", none, none⟩
              ⟨"http://x/namaste", "", "", none⟩) * 30⌋).toNat) :=
  c2_fuzzy_fallback_gating "vata"
    (createSearchEntry ⟨"VAT1", "Vata disorder", none, none⟩ ⟨"http://x/namaste", "", "", none⟩)
    true (by decide)

/-! ## Lemmas about the scan loop and the sort -/

lemma scanIndex_length_le (st : String) (opts : SearchOptions) :
    ∀ (l : SearchIndex) (acc : List (SearchEntry × Nat)), acc.length < opts.limit * 3 →
      (scanIndex st opts l acc).length ≤ opts.limit * 3 := by
  intro l
  induction l with
  | nil =>
    intro acc hacc
    rw [scanIndex]
    omega
  | cons p rest ih =>
    intro acc hacc
    obtain ⟨k, entry⟩ := p
    simp only [scanIndex]
    by_cases hskip : skipEntry opts entry = true
    · rw [if_pos hskip]
      exact ih acc hacc
    · rw [if_neg hskip]
      set results := (if 0 < calculateRelevanceScore st entry opts.fuzzy then
        acc ++ [(entry, calculateRelevanceScore st entry opts.fuzzy)] else acc) with hres
      have hlen : results.length ≤ acc.length + 1 := by
        rw [hres]
        split_ifs <;> simp
      by_cases hbreak : opts.limit * 3 ≤ results.length
      · rw [if_pos hbreak]
        omega
      · rw [if_neg hbreak]
        exact ih results (by omega)

lemma scanIndex_mem_pos (st : String) (opts : SearchOptions) :
    ∀ (l : SearchIndex) (acc : List (SearchEntry × Nat)) (p : SearchEntry × Nat),
      p ∈ scanIndex st opts l acc → p ∈ acc ∨ 0 < p.2 := by
  intro l
  induction l with
  | nil =>
    intro acc p hp
    rw [scanIndex] at hp
    exact Or.inl hp
  | cons q rest ih =>
    intro acc p hp
    obtain ⟨k, entry⟩ := q
    simp only [scanIndex] at hp
    by_cases hskip : skipEntry opts entry = true
    · rw [if_pos hskip] at hp
      exact ih acc p hp
    · rw [if_neg hskip] at hp
      set results := (if 0 < calculateRelevanceScore st entry opts.fuzzy then
        acc ++ [(entry, calculateRelevanceScore st entry opts.fuzzy)] else acc) with hres
      have hmem : ∀ y : SearchEntry × Nat, y ∈ results → y ∈ acc ∨ 0 < y.2 := by
        intro y hy
        rw [hres] at hy
        split_ifs at hy with hsc
        · rcases List.mem_append.mp hy with h | h
          · exact Or.inl h
          · right
            rw [List.mem_singleton.mp h]
            exact hsc
        · exact Or.inl hy
      by_cases hbreak : opts.limit * 3 ≤ results.length
      · rw [if_pos hbreak] at hp
        exact hmem p hp
      · rw [if_neg hbreak] at hp
        rcases ih results p hp with h | h
        · exact hmem p h
        · exact Or.inr h

lemma insertByScoreDesc_mem (x : SearchEntry × Nat) :
    ∀ (l : List (SearchEntry × Nat)) (y : SearchEntry × Nat),
      y ∈ insertByScoreDesc x l ↔ y = x ∨ y ∈ l := by
  intro l
  induction l with
  | nil => simp [insertByScoreDesc]
  | cons z zs ih =>
    intro y
    rw [insertByScoreDesc]
    split_ifs
    · simp only [List.mem_cons]
    · simp only [List.mem_cons, ih]
      tauto

lemma insertByScoreDesc_length (x : SearchEntry × Nat) :
    ∀ (l : List (SearchEntry × Nat)), (insertByScoreDesc x l).length = l.length + 1 := by
  intro l
  induction l with
  | nil => rfl
  | cons z zs ih =>
    rw [insertByScoreDesc]
    split_ifs <;> simp [ih]

lemma insertByScoreDesc_sorted (x : SearchEntry × Nat) :
    ∀ (l : List (SearchEntry × Nat)),
      List.Sorted (fun a b : SearchEntry × Nat => b.2 ≤ a.2) l →
      List.Sorted (fun a b : SearchEntry × Nat => b.2 ≤ a.2) (insertByScoreDesc x l) := by
  intro l
  induction l with
  | nil => intro _; simp [insertByScoreDesc]
  | cons z zs ih =>
    intro hs
    rw [List.sorted_cons] at hs
    obtain ⟨hz, hzs⟩ := hs
    rw [insertByScoreDesc]
    split_ifs with hcmp
    · rw [List.sorted_cons]
      refine ⟨?_, List.sorted_cons.mpr ⟨hz, hzs⟩⟩
      intro b hb
      rcases List.mem_cons.mp hb with rfl | hb
      · exact hcmp
      · exact le_trans (hz b hb) hcmp
    · rw [List.sorted_cons]
      refine ⟨?_, ih hzs⟩
      intro b hb
      rcases (insertByScoreDesc_mem x zs b).mp hb with rfl | hb
      · omega
      · exact hz b hb

lemma sortByScoreDesc_sorted :
    ∀ (l : List (SearchEntry × Nat)),
      List.Sorted (fun a b : SearchEntry × Nat => b.2 ≤ a.2) (sortByScoreDesc l) := by
  intro l
  induction l with
  | nil => simp [sortByScoreDesc]
  | cons x xs ih => exact insertByScoreDesc_sorted x _ ih

lemma sortByScoreDesc_length :
    ∀ (l : List (SearchEntry × Nat)), (sortByScoreDesc l).length = l.length := by
  intro l
  induction l with
  | nil => rfl
  | cons x xs ih =>
    rw [sortByScoreDesc, insertByScoreDesc_length, ih, List.length_cons]

lemma sortByScoreDesc_mem :
    ∀ (l : List (SearchEntry × Nat)) (y : SearchEntry × Nat),
      y ∈ sortByScoreDesc l ↔ y ∈ l := by
  intro l
  induction l with
  | nil => simp [sortByScoreDesc]
  | cons x xs ih =>
    intro y
    rw [sortByScoreDesc, insertByScoreDesc_mem, List.mem_cons, ih]

/-! ## Claims C5 and C10 -/

/-- A small concrete index used by witnesses and counterexamples. -/
def sampleEntry : SearchEntry :=
  { system := "s", systemType := "unknown", systemName := "n", code := "ab", display := "ab",
    definition := "", searchTerms := ["ab"], properties := [], mappings := [] }

/-- A one-entry index whose entry matches the query `"ab"`. -/
def sampleIndex : SearchIndex := [("s|ab", sampleEntry)]

/-- C5 (amended: for a positive requested `limit`): on any scanned search,
the reported total equals the number of entries collected before
truncation, that number is at most `3 × limit`, the returned list has
length at most `limit`, it is sorted by score descending, and every
returned entry has positive score. For `limit = 0` the `3 × limit` bound
fails (see the counterexample): the break check runs only after an entry
may already have been collected. -/
theorem c5_scan_bound_sort_truncate (idx : SearchIndex) (q : String) (opts : SearchOptions)
    (hlim : 1 ≤ opts.limit) (hlen : 2 ≤ (strTrim (strToLower q)).length) :
    (searchTermsOp idx q opts).total =
      (scanIndex (strTrim (strToLower q)) opts idx []).length ∧
    (scanIndex (strTrim (strToLower q)) opts idx []).length ≤ opts.limit * 3 ∧
    (searchTermsOp idx q opts).results.length ≤ opts.limit ∧
    List.Sorted (fun a b : SearchEntry × Nat => b.2 ≤ a.2) (searchTermsOp idx q opts).results ∧
    (∀ p ∈ (searchTermsOp idx q opts).results, 0 < p.2) := by
  have hnot : ¬((strTrim (strToLower q)).length < 2) := by omega
  simp only [searchTermsOp, if_neg hnot, createSearchBundle]
  refine ⟨sortByScoreDesc_length _,
    scanIndex_length_le _ _ _ _ (by simp only [List.length_nil]; omega), ?_, ?_, ?_⟩
  · rw [List.length_take]
    omega
  · exact List.Pairwise.sublist (List.take_sublist _ _) (sortByScoreDesc_sorted _)
  · intro p hp
    have hmem := (List.take_sublist _ _).subset hp
    rw [sortByScoreDesc_mem] at hmem
    rcases scanIndex_mem_pos _ _ _ _ _ hmem with h | h
    · exact absurd h (List.not_mem_nil p)
    · exact h

/-- Counterexample to C5 as stated: with requested `limit = 0` the scan
still collects one entry before the break check fires, so the reported
total is `1 > 3 × 0`. -/
theorem c5_counterexample_limit_zero :
    (searchTermsOp sampleIndex "ab" ⟨none, none, 0, false⟩).total = 1 ∧
    ¬((searchTermsOp sampleIndex "ab" ⟨none, none, 0, false⟩).total ≤
        (⟨none, none, 0, false⟩ : SearchOptions).limit * 3) := by
  decide

/-- Witness for the amended C5 at a concrete index and limit. -/
theorem c5_scan_bound_sort_truncate_witness :
    (searchTermsOp sampleIndex "ab" ⟨none, none, 2, false⟩).total =
      (scanIndex (strTrim (strToLower "ab")) ⟨none, none, 2, false⟩ sampleIndex []).length ∧
    (scanIndex (strTrim (strToLower "ab")) ⟨none, none, 2, false⟩ sampleIndex []).length ≤
      (⟨none, none, 2, false⟩ : SearchOptions).limit * 3 ∧
    (searchTermsOp sampleIndex "ab" ⟨none, none, 2, false⟩).results.length ≤
      (⟨none, none, 2, false⟩ : SearchOptions).limit ∧
    List.Sorted (fun a b : SearchEntry × Nat => b.2 ≤ a.2)
      (searchTermsOp sampleIndex "ab" ⟨none, none, 2, false⟩).results ∧
    (∀ p ∈ (searchTermsOp sampleIndex "ab" ⟨none, none, 2, false⟩).results, 0 < p.2) :=
  c5_scan_bound_sort_truncate sampleIndex "ab" ⟨none, none, 2, false⟩ (by decide) (by decide)

/-- C10: `searchTerms` lowercases and trims the query before the
minimum-length check and before scoring: a query whose trimmed lowercased
form is shorter than 2 characters is rejected with the typed
"Query too short" bundle, and the scored results depend on the query only
through its trimmed lowercased form (only the echoed self-link keeps the
raw query). -/
theorem c10_query_normalized_before_check_and_scoring
    (idx : SearchIndex) (q q' : String) (opts : SearchOptions) :
    ((strTrim (strToLower q)).length < 2 →
      searchTermsOp idx q opts = createEmptySearchBundle "Query too short") ∧
    (strTrim (strToLower q) = strTrim (strToLower q') →
      (searchTermsOp idx q opts).total = (searchTermsOp idx q' opts).total ∧
      (searchTermsOp idx q opts).results = (searchTermsOp idx q' opts).results ∧
      (searchTermsOp idx q opts).issue = (searchTermsOp idx q' opts).issue) := by
  constructor
  · intro h
    simp only [searchTermsOp, if_pos h]
  · intro h
    simp only [searchTermsOp, h]
    split_ifs <;> simp [createSearchBundle, createEmptySearchBundle]

/-- Witness for C10: the raw query `" x "` has three characters but its
trimmed form is short, so it is rejected; and `" AB "` scores identically
to `"ab"`. -/
theorem c10_query_normalized_witness :
    (searchTermsOp sampleIndex " x " ⟨none, none, 20, false⟩ =
      createEmptySearchBundle "Query too short") ∧
    (searchTermsOp sampleIndex " AB " ⟨none, none, 20, false⟩).total =
      (searchTermsOp sampleIndex "ab" ⟨none, none, 20, false⟩).total ∧
    (searchTermsOp sampleIndex " AB " ⟨none, none, 20, false⟩).results =
      (searchTermsOp sampleIndex "ab" ⟨none, none, 20, false⟩).results :=
  ⟨(c10_query_normalized_before_check_and_scoring sampleIndex " x " " x "
      ⟨none, none, 20, false⟩).1 (by decide),
   ((c10_query_normalized_before_check_and_scoring sampleIndex " AB " "ab"
      ⟨none, none, 20, false⟩).2 (by decide)).1,
   ((c10_query_normalized_before_check_and_scoring sampleIndex " AB " "ab"
      ⟨none, none, 20, false⟩).2 (by decide)).2.1⟩

/-! ## Claim C1 -/

/-- The target-lookup chain of `translateConcept` after the ConceptMap has
been found: first group with matching source, first element with matching
code, first target with `equivalence === 'equivalent'`. -/
def translateTarget (cm : ConceptMap) (sourceSystem sourceCode : String) :
    Option MappingTarget :=
  (((cm.group.getD []).find? (fun g => g.source = sourceSystem)).bind
      (fun g => (g.element.getD []).find? (fun e => e.code = sourceCode))).bind
    (fun e => (e.target.getD []).find? (fun t => t.equivalence = "equivalent"))

lemma translateConcept_cases (db : Database) (ss sc ts : String) :
    translateConcept db ss sc ts =
      match db.conceptmaps.find? (fun m => m.sourceUri = ss && m.targetUri = ts) with
      | none => .failure "No ConceptMap found for the specified systems"
      | some cm =>
        match translateTarget cm ss sc with
        | none => .failure "No equivalent mapping found"
        | some t => .success t.equivalence ⟨ts, t.code, t.display⟩ := rfl

/-- Counterexample to C1 as stated: a store satisfying the claim's
existential premise (a matching ConceptMap containing a group with
source = sourceSystem containing an element with the requested code and an
`equivalent` target) on which translate nevertheless reports not-found,
because `find` takes the *first* element with that code — here one with
only a `wider` target — and the second, equivalent-carrying duplicate is
never consulted. -/
def c1CexDb : Database :=
  { conceptmaps := [
      { sourceUri := "A", targetUri := "B", group := some [
        { source := "A", target := "B", element := some [
          { code := "c", target := some [⟨"x", "X", "wider", none⟩] },
          { code := "c", target := some [⟨"y", "Y", "equivalent", none⟩] } ] } ] } ] }

/-- The claim's premise holds on `c1CexDb` for the request
`("A", "c", "B")`, yet `translateConcept` returns the typed not-found
result instead of the equivalent target `("y", "Y")`. -/
theorem c1_counterexample_duplicate_elements :
    (∃ cm ∈ c1CexDb.conceptmaps, cm.sourceUri = "A" ∧ cm.targetUri = "B" ∧
      ∃ g ∈ cm.group.getD [], g.source = "A" ∧
        ∃ e ∈ g.element.getD [], e.code = "c" ∧
          ∃ t ∈ e.target.getD [], t.equivalence = "equivalent") ∧
    translateConcept c1CexDb "A" "c" "B" = .failure "No equivalent mapping found" := by
  constructor
  · refine ⟨_, List.mem_cons_self _ _, rfl, rfl, ?_⟩
    refine ⟨_, List.mem_cons_self _ _, rfl, ?_⟩
    refine ⟨_, List.mem_cons_of_mem _ (List.mem_cons_self _ _), rfl, ?_⟩
    exact ⟨_, List.mem_cons_self _ _, rfl⟩
  · rfl

/-- C1 (amended: the ConceptMap, group, element and target are the
*first* matches, as resolved by `find`/`findOne`): when the first matching
element has a target with equivalence `equivalent`, translate succeeds and
returns exactly the first such target's code and display with equivalence
`equivalent` and system equal to the requested target system; when the
first matching element has no `equivalent` target, translate returns the
typed not-found result, never a target of a different equivalence. -/
theorem c1_translate_first_match (db : Database) (ss sc ts : String)
    (cm : ConceptMap) (g : MappingGroup) (e : MappingElement)
    (hm : db.conceptmaps.find? (fun m => m.sourceUri = ss && m.targetUri = ts) = some cm)
    (hg : (cm.group.getD []).find? (fun g => g.source = ss) = some g)
    (he : (g.element.getD []).find? (fun e => e.code = sc) = some e) :
    (∀ t, (e.target.getD []).find? (fun t => t.equivalence = "equivalent") = some t →
      translateConcept db ss sc ts = .success "equivalent" ⟨ts, t.code, t.display⟩) ∧
    ((e.target.getD []).find? (fun t => t.equivalence = "equivalent") = none →
      translateConcept db ss sc ts = .failure "No equivalent mapping found") := by
  constructor
  · intro t ht
    have hteq : t.equivalence = "equivalent" := by
      have := List.find?_some ht
      simpa using this
    rw [translateConcept_cases, hm]
    simp only [translateTarget, hg, Option.some_bind, he, ht, hteq]
  · intro ht
    rw [translateConcept_cases, hm]
    simp only [translateTarget, hg, Option.some_bind, he, ht]

/-- The spec's example store for the witness. -/
def c1wDb : Database :=
  { conceptmaps := [
      { sourceUri := "A", targetUri := "B", group := some [
        { source := "A", target := "B", element := some [
          { code := "AAB",
            target := some [⟨"TM2.A0", "Disorders of Vata dosha", "equivalent", none⟩] } ] } ] } ] }

/-- Witness for C1 at the spec's example: `translate("A","AAB","B")`
returns the equivalent target `TM2.A0`. -/
theorem c1_translate_first_match_witness :
    translateConcept c1wDb "A" "AAB" "B" =
      .success "equivalent" ⟨"B", "TM2.A0", "Disorders of Vata dosha"⟩ :=
  (c1_translate_first_match c1wDb "A" "AAB" "B"
      ⟨"A", "B", some [⟨"A", "B", some [⟨"AAB",
        some [⟨"TM2.A0", "Disorders of Vata dosha", "equivalent", none⟩]⟩]⟩]⟩
      ⟨"A", "B", some [⟨"AAB", some [⟨"TM2.A0", "Disorders of Vata dosha", "equivalent", none⟩]⟩]⟩
      ⟨"AAB", some [⟨"TM2.A0", "Disorders of Vata dosha", "equivalent", none⟩]⟩
      rfl rfl rfl).1
    ⟨"TM2.A0", "Disorders of Vata dosha", "equivalent", none⟩ rfl

/-! ## Claim C3 -/

/-- C3: every successful expansion reports as `total` the number of
concepts after filtering and before pagination, returns as `contains` the
`offset`/`count` page of the filtered concepts mapped to
`{system, code, display}` only (no definition is carried), and the page
length is `min(count, total - offset)` when `offset < total` and `0`
otherwise. -/
theorem c3_expansion_pagination (db : Database) (url : String) (filter : Option String)
    (count offset : Nat) (exp : ValueSetExpansionResult)
    (h : expandValueSet db url filter count offset = .ok exp) :
    ∃ vs inc sys codeSystem,
      db.valuesets.find? (fun v => v.url = url) = some vs ∧
      (vs.compose.bind (fun c => c.includeL)).bind List.head? = some inc ∧
      inc.system = some sys ∧
      db.codesystems.find? (fun cs => cs.url = sys) = some codeSystem ∧
      exp.total = (applyExpandFilter filter (codeSystem.concept.getD [])).length ∧
      exp.contains =
        (jsSlice (applyExpandFilter filter (codeSystem.concept.getD [])) offset count).map
          (fun c => ⟨sys, c.code, c.display⟩) ∧
      exp.contains.length = (if offset < exp.total then min count (exp.total - offset) else 0) := by
  rw [expandValueSet] at h
  cases hvs : db.valuesets.find? (fun v => v.url = url) with
  | none =>
    rw [hvs] at h
    exact absurd h (by simp)
  | some vs =>
    rw [hvs] at h
    dsimp only at h
    cases hinc : (vs.compose.bind (fun c => c.includeL)).bind List.head? with
    | none =>
      rw [hinc] at h
      exact absurd h (by simp)
    | some inc =>
      rw [hinc] at h
      dsimp only at h
      by_cases hsys : jsTruthy inc.system = true
      · rw [if_pos hsys] at h
        cases hcs : db.codesystems.find? (fun cs => cs.url = inc.system.getD "") with
        | none =>
          rw [hcs] at h
          exact absurd h (by simp)
        | some codeSystem =>
          rw [hcs] at h
          dsimp only at h
          cases hsome : inc.system with
          | none => rw [hsome] at hsys; simp [jsTruthy] at hsys
          | some s =>
            rw [Except.ok.injEq] at h
            refine ⟨vs, inc, s, codeSystem, rfl, hinc, hsome, ?_, ?_, ?_, ?_⟩
            · rw [hsome] at hcs
              simpa using hcs
            · rw [← h]
            · rw [← h, hsome]
              simp only [Option.getD_some]
            · rw [← h, hsome]
              simp only [jsSlice, List.length_map, List.length_take, List.length_drop]
              split_ifs <;> omega
      · rw [if_neg hsys] at h
        exact absurd h (by simp)

/-- A concrete store for the C3 witness: one ValueSet over a CodeSystem
with three concepts, expanded with `count = 2`, `offset = 1`. -/
def c3wDb : Database :=
  { codesystems := [
      { url := "http://x/namaste", name := "N", concept := some [
        ⟨"A1", "Alpha", none, none⟩, ⟨"B2", "Beta", none, none⟩,
        ⟨"C3", "Gamma", none, none⟩ ] } ],
    valuesets := [
      { url := "u", compose := some { includeL := some [{ system := some "http://x/namaste" }] } } ] }

/-- The expansion record produced on the witness store. -/
def c3wExp : ValueSetExpansionResult :=
  { id := "", url := "u", version := "", name := "", title := "", status := "",
    total := 3, offset := 1, filterParam := none,
    contains := [⟨"http://x/namaste", "B2", "Beta"⟩, ⟨"http://x/namaste", "C3", "Gamma"⟩] }

/-- Witness for C3: the concrete expansion of `c3wDb` with
`count = 2, offset = 1` has `total = 3` and a page of length
`min(2, 3 - 1) = 2`. -/
theorem c3_expansion_pagination_witness :
    ∃ vs inc sys codeSystem,
      c3wDb.valuesets.find? (fun v => v.url = "u") = some vs ∧
      (vs.compose.bind (fun c => c.includeL)).bind List.head? = some inc ∧
      inc.system = some sys ∧
      c3wDb.codesystems.find? (fun cs => cs.url = sys) = some codeSystem ∧
      c3wExp.total = (applyExpandFilter none (codeSystem.concept.getD [])).length ∧
      c3wExp.contains =
        (jsSlice (applyExpandFilter none (codeSystem.concept.getD [])) 1 2).map
          (fun c => ⟨sys, c.code, c.display⟩) ∧
      c3wExp.contains.length = (if 1 < c3wExp.total then min 2 (c3wExp.total - 1) else 0) :=
  c3_expansion_pagination c3wDb "u" none 2 1 c3wExp rfl

/-! ## Claim C4 -/

/-- Counterexample to C4 as stated: `expandValueSet` on a store with no
matching ValueSet does not return a typed not-found result — it throws
(`throw new Error('ValueSet not found')`, the `.error` case of the
embedding), and its caller in `routes/fhir.js` has to catch that message. -/
theorem c4_counterexample_expand_throws :
    expandValueSet ({} : Database) "missing" none 20 0 = .error "ValueSet not found" := rfl

/-- C4 (amended): `searchTerms` returns the typed "Query too short" bundle
for short queries and `translateConcept` returns typed `result=false`
Parameters resources both when no ConceptMap matches and when the resolved
element has no `equivalent` target; `expandValueSet`, by contrast, throws
an error for an absent ValueSet uri instead of returning a typed result. -/
theorem c4_not_found_and_invalid_query_outcomes
    (idx : SearchIndex) (q : String) (opts : SearchOptions)
    (db : Database) (ss sc ts url : String) (filter : Option String) (count offset : Nat)
    (cm : ConceptMap) :
    ((strTrim (strToLower q)).length < 2 →
      searchTermsOp idx q opts = createEmptySearchBundle "Query too short") ∧
    (db.conceptmaps.find? (fun m => m.sourceUri = ss && m.targetUri = ts) = none →
      translateConcept db ss sc ts = .failure "No ConceptMap found for the specified systems") ∧
    (db.conceptmaps.find? (fun m => m.sourceUri = ss && m.targetUri = ts) = some cm →
      translateTarget cm ss sc = none →
      translateConcept db ss sc ts = .failure "No equivalent mapping found") ∧
    (db.valuesets.find? (fun v => v.url = url) = none →
      expandValueSet db url filter count offset = .error "ValueSet not found") := by
  refine ⟨?_, ?_, ?_, ?_⟩
  · intro h
    simp only [searchTermsOp, if_pos h]
  · intro h
    rw [translateConcept_cases, h]
  · intro hm ht
    rw [translateConcept_cases, hm]
    dsimp only
    rw [ht]
  · intro h
    rw [expandValueSet, h]

/-- Witness for C4: concrete instances of all four outcomes. -/
theorem c4_not_found_and_invalid_query_outcomes_witness :
    (searchTermsOp sampleIndex " x " ⟨none, none, 20, false⟩ =
      createEmptySearchBundle "Query too short") ∧
    (translateConcept ({} : Database) "A" "c" "B" =
      .failure "No ConceptMap found for the specified systems") ∧
    (translateConcept c1CexDb "A" "zz" "B" = .failure "No equivalent mapping found") ∧
    (expandValueSet ({} : Database) "missing" none 20 0 = .error "ValueSet not found") :=
  ⟨(c4_not_found_and_invalid_query_outcomes sampleIndex " x " ⟨none, none, 20, false⟩
      ({} : Database) "A" "c" "B" "missing" none 20 0 ⟨"A", "B", none⟩).1 (by decide),
   (c4_not_found_and_invalid_query_outcomes sampleIndex " x " ⟨none, none, 20, false⟩
      ({} : Database) "A" "c" "B" "missing" none 20 0 ⟨"A", "B", none⟩).2.1 rfl,
   (c4_not_found_and_invalid_query_outcomes sampleIndex "ab" ⟨none, none, 20, false⟩
      c1CexDb "A" "zz" "B" "missing" none 20 0
      ⟨"A", "B", some [⟨"A", "B", some [
        ⟨"c", some [⟨"x", "X", "wider", none⟩]⟩,
        ⟨"c", some [⟨"y", "Y", "equivalent", none⟩]⟩]⟩]⟩).2.2.1 rfl rfl,
   (c4_not_found_and_invalid_query_outcomes sampleIndex "ab" ⟨none, none, 20, false⟩
      ({} : Database) "A" "c" "B" "missing" none 20 0 ⟨"A", "B", none⟩).2.2.2 rfl⟩

/-! ## Claim C8 -/

/-- A store whose ConceptMaps read fails while the CodeSystems read
succeeds. -/
def c8Store : StoreState :=
  { cache := none,
    codesystems := .ok [{ url := "u", name := "n", concept := some [⟨"c1", "D1", none, none⟩] }],
    conceptmaps := .error "conceptmaps read failed" }

/-- Counterexample to C8 as stated: a Concept Store read error in the
mapping-attachment pass (the ConceptMaps read inside
`enhanceWithMappings`) does *not* abort the build — the catch block there
only logs, so `buildSearchIndex` still succeeds with the concept entries. -/
theorem c8_counterexample_conceptmaps_read_error_swallowed :
    c8Store.conceptmaps = .error "conceptmaps read failed" ∧
    buildSearchIndex c8Store =
      .ok (conceptIndexOf
        [{ url := "u", name := "n", concept := some [⟨"c1", "D1", none, none⟩] }]) :=
  ⟨rfl, rfl⟩

/-- C8 (amended): a CodeSystems read error aborts the build and surfaces
the error; a ConceptMaps read error in the mapping-attachment pass is
swallowed (only logged), leaving the index populated with the concept
entries already built; the build otherwise succeeds with the enhanced
index; and a ConceptMap without a `group` field contributes nothing to the
mapping pass without aborting it. -/
theorem c8_build_error_handling (store : StoreState) (css : List CodeSystem) (err : String)
    (idx : SearchIndex) (m1 m2 : List ConceptMap) (bad : ConceptMap)
    (hc : store.cache = none) :
    (store.codesystems = .error err → buildSearchIndex store = .error err) ∧
    (store.codesystems = .ok css → store.conceptmaps = .error err →
      buildSearchIndex store = .ok (conceptIndexOf css)) ∧
    (store.codesystems = .ok css →
      buildSearchIndex store = .ok (enhanceWithMappings store (conceptIndexOf css))) ∧
    (bad.group = none → enhanceMaps (m1 ++ bad :: m2) idx = enhanceMaps (m1 ++ m2) idx) := by
  refine ⟨?_, ?_, ?_, ?_⟩
  · intro h
    rw [buildSearchIndex, hc, h]
  · intro hcs hcm
    rw [buildSearchIndex, hc, hcs]
    dsimp only
    rw [enhanceWithMappings, hcm]
  · intro hcs
    rw [buildSearchIndex, hc, hcs]
  · intro hbad
    simp only [enhanceMaps, List.foldl_append, List.foldl_cons]
    rw [applyMap, hbad]

/-- A store whose CodeSystems read fails. -/
def c8FailStore : StoreState :=
  { cache := none, codesystems := .error "codesystems read failed", conceptmaps := .ok [] }

/-- The CodeSystems of `c8Store`. -/
def c8Css : List CodeSystem :=
  [{ url := "u", name := "n", concept := some [⟨"c1", "D1", none, none⟩] }]

/-- A ConceptMap without a `group` field. -/
def c8BadMap : ConceptMap := { sourceUri := "A", targetUri := "B", group := none }

/-- Witness for C8 at concrete stores. -/
theorem c8_build_error_handling_witness :
    (buildSearchIndex c8FailStore = .error "codesystems read failed") ∧
    (buildSearchIndex c8Store = .ok (conceptIndexOf c8Css)) ∧
    (enhanceMaps ([] ++ c8BadMap :: []) sampleIndex = enhanceMaps ([] ++ []) sampleIndex) :=
  ⟨(c8_build_error_handling c8FailStore [] "codesystems read failed" sampleIndex [] [] c8BadMap
      rfl).1 rfl,
   (c8_build_error_handling c8Store c8Css "conceptmaps read failed" sampleIndex [] [] c8BadMap
      rfl).2.1 rfl rfl,
   (c8_build_error_handling c8Store [] "x" sampleIndex [] [] c8BadMap rfl).2.2.2 rfl⟩

/-! ## Claim C9 -/

lemma find?_map_replaceKey (rest : SearchIndex) (k k' : String) (v : SearchEntry)
    (hk : k' ≠ k) :
    (rest.map (fun p => if p.1 = k then (k, v) else p)).find? (fun p => p.1 = k') =
      rest.find? (fun p => p.1 = k') := by
  induction rest with
  | nil => rfl
  | cons q t ih =>
    rw [List.map_cons]
    by_cases hq : q.1 = k
    · rw [if_pos hq, List.find?_cons_of_neg _ (by simp [Ne.symm hk]),
        List.find?_cons_of_neg _ (by simp [hq, Ne.symm hk])]
      exact ih
    · rw [if_neg hq]
      by_cases hq' : q.1 = k'
      · rw [List.find?_cons_of_pos _ (by simp [hq']), List.find?_cons_of_pos _ (by simp [hq'])]
      · rw [List.find?_cons_of_neg _ (by simp [hq']), List.find?_cons_of_neg _ (by simp [hq'])]
        exact ih

/-- `Map.set` then `Map.get`: the set key reads back the new value, any
other key is unaffected. -/
lemma mapGet_mapSet (idx : SearchIndex) (k k' : String) (v : SearchEntry) :
    mapGet (mapSet idx k v) k' = if k' = k then some v else mapGet idx k' := by
  rw [mapSet]
  by_cases hany : idx.any (fun p => p.1 = k) = true
  · rw [if_pos hany]
    by_cases hk : k' = k
    · rw [if_pos hk]
      subst hk
      induction idx with
      | nil => simp at hany
      | cons q t ih =>
        rw [List.any_cons] at hany
        rw [List.map_cons]
        by_cases hq : q.1 = k'
        · rw [if_pos hq]
          unfold mapGet
          rw [List.find?_cons_of_pos _ (by simp)]
          rfl
        · rw [if_neg hq]
          unfold mapGet
          rw [List.find?_cons_of_neg _ (by simp [hq])]
          exact ih (by simpa [hq] using hany)
    · rw [if_neg hk]
      unfold mapGet
      rw [find?_map_replaceKey _ _ _ _ hk]
  · rw [if_neg hany]
    unfold mapGet
    rw [List.find?_append]
    by_cases hk : k' = k
    · rw [if_pos hk]
      subst hk
      have hnone : idx.find? (fun p => p.1 = k') = none := by
        rw [List.find?_eq_none]
        intro p hp
        simp only [decide_eq_true_eq]
        intro hpk
        exact hany (List.any_eq_true.mpr ⟨p, hp, by simp [hpk]⟩)
      rw [hnone]
      simp
    · rw [if_neg hk]
      have hsing : ([(k, v)] : SearchIndex).find? (fun p => p.1 = k') = none := by
        simp [Ne.symm hk]
      rw [hsing]
      simp

/-- The resolved mapping list that one ConceptMap element assigns to the
entry at `key` (empty when the element does not address `key` or has no
`target`). -/
def elemUpdate (key : String) (group : MappingGroup) (element : MappingElement) :
    List (List MappingRecord) :=
  if group.source ++ "|" ++ element.code = key ∧ element.target.isSome then
    [resolveTargets group (element.target.getD [])]
  else []

/-- All updates a group applies to `key`, in element order. -/
def groupUpdates (key : String) (group : MappingGroup) : List (List MappingRecord) :=
  (group.element.getD []).flatMap (elemUpdate key group)

/-- All updates a ConceptMap applies to `key`, in group order. -/
def mapUpdates (key : String) (conceptMap : ConceptMap) : List (List MappingRecord) :=
  (conceptMap.group.getD []).flatMap (groupUpdates key)

/-- All updates the mapping pass applies to `key`, in processing order. -/
def allUpdates (key : String) (maps : List ConceptMap) : List (List MappingRecord) :=
  maps.flatMap (mapUpdates key)

lemma getLastD_append {α : Type} (l1 l2 : List α) (d : α) :
    (l1 ++ l2).getLastD d = l2.getLastD (l1.getLastD d) := by
  induction l1 generalizing d with
  | nil => rfl
  | cons x xs ih =>
    rw [List.cons_append, List.getLastD_cons, ih, List.getLastD_cons]

lemma mapGet_applyElement (idx : SearchIndex) (g : MappingGroup) (e : MappingElement)
    (key : String) (ent : SearchEntry) (hent : mapGet idx key = some ent) :
    mapGet (applyElement idx g e) key =
      some { ent with mappings := (elemUpdate key g e).getLastD ent.mappings } := by
  rw [applyElement]
  by_cases hkey : g.source ++ "|" ++ e.code = key
  · rw [hkey]
    cases htgt : e.target with
    | none =>
      simp only [hent, htgt]
      rw [elemUpdate, if_neg (by simp [htgt])]
      exact rfl
    | some ts =>
      simp only [hent, htgt]
      rw [mapGet_mapSet, if_pos rfl, elemUpdate, if_pos (by simp [hkey, htgt])]
      simp [htgt]
  · have hupd : elemUpdate key g e = [] := by
      rw [elemUpdate, if_neg (by simp [hkey])]
    rw [hupd]
    cases hsk : mapGet idx (g.source ++ "|" ++ e.code) with
    | none =>
      cases htgt : e.target <;> simp only [hsk, htgt] <;> exact hent
    | some se =>
      cases htgt : e.target with
      | none =>
        simp only [hsk, htgt]
        exact hent
      | some ts =>
        simp only [hsk, htgt]
        rw [mapGet_mapSet, if_neg (fun h => hkey h.symm), hent]
        exact rfl

lemma mapGet_applyGroup (idx : SearchIndex) (g : MappingGroup)
    (key : String) (ent : SearchEntry) (hent : mapGet idx key = some ent) :
    mapGet (applyGroup idx g) key =
      some { ent with mappings := (groupUpdates key g).getLastD ent.mappings } := by
  rw [applyGroup, groupUpdates]
  cases hel : g.element with
  | none =>
    simp only [Option.getD_none, List.flatMap_nil]
    exact hent
  | some es =>
    simp only [Option.getD_some]
    clear hel
    induction es generalizing idx ent with
    | nil =>
      simp only [List.foldl_nil, List.flatMap_nil]
      exact hent
    | cons e es ih =>
      rw [List.foldl_cons, List.flatMap_cons, getLastD_append]
      exact ih (applyElement idx g e) { ent with mappings := (elemUpdate key g e).getLastD ent.mappings }
        (mapGet_applyElement idx g e key ent hent)

lemma mapGet_applyMap (idx : SearchIndex) (cm : ConceptMap)
    (key : String) (ent : SearchEntry) (hent : mapGet idx key = some ent) :
    mapGet (applyMap idx cm) key =
      some { ent with mappings := (mapUpdates key cm).getLastD ent.mappings } := by
  rw [applyMap, mapUpdates]
  cases hg : cm.group with
  | none =>
    simp only [Option.getD_none, List.flatMap_nil]
    exact hent
  | some gs =>
    simp only [Option.getD_some]
    clear hg
    induction gs generalizing idx ent with
    | nil =>
      simp only [List.foldl_nil, List.flatMap_nil]
      exact hent
    | cons g gs ih =>
      rw [List.foldl_cons, List.flatMap_cons, getLastD_append]
      exact ih (applyGroup idx g) { ent with mappings := (groupUpdates key g).getLastD ent.mappings }
        (mapGet_applyGroup idx g key ent hent)

lemma mapGet_enhanceMaps (maps : List ConceptMap) (idx : SearchIndex)
    (key : String) (ent : SearchEntry) (hent : mapGet idx key = some ent) :
    mapGet (enhanceMaps maps idx) key =
      some { ent with mappings := (allUpdates key maps).getLastD ent.mappings } := by
  rw [enhanceMaps, allUpdates]
  induction maps generalizing idx ent with
  | nil =>
    simp only [List.foldl_nil, List.flatMap_nil]
    exact hent
  | cons cm maps ih =>
    rw [List.foldl_cons, List.flatMap_cons, getLastD_append]
    exact ih (applyMap idx cm) { ent with mappings := (mapUpdates key cm).getLastD ent.mappings }
      (mapGet_applyMap idx cm key ent hent)

/-- C9: when the mapping pass processes two or more elements resolving to
the same `(group.source, element.code)` key, the entry's `mappings` list is
assigned, not appended to: after the pass it equals the resolved targets of
only the last-processed matching element (`getLastD` of the update list),
and updates from earlier matching elements are lost. -/
theorem c9_mappings_assignment_last_wins (store : StoreState) (maps : List ConceptMap)
    (idx : SearchIndex) (key : String) (ent : SearchEntry)
    (hmaps : store.conceptmaps = .ok maps)
    (hent : mapGet idx key = some ent)
    (_hdup : 2 ≤ (allUpdates key maps).length) :
    mapGet (enhanceWithMappings store idx) key =
      some { ent with mappings := (allUpdates key maps).getLastD ent.mappings } := by
  rw [enhanceWithMappings, hmaps]
  exact mapGet_enhanceMaps maps idx key ent hent

/-- Two ConceptMap elements resolving to the same key `"A|c"`. -/
def c9Maps : List ConceptMap :=
  [{ sourceUri := "A", targetUri := "B", group := some [
    { source := "A", target := "B", element := some [
      { code := "c", target := some [⟨"x", "X", "relatedto", none⟩] },
      { code := "c", target := some [⟨"y", "Y", "equivalent", none⟩] } ] } ] }]

/-- A store that reads `c9Maps`. -/
def c9Store : StoreState := { cache := none, codesystems := .ok [], conceptmaps := .ok c9Maps }

/-- An index entry at key `"A|c"`. -/
def sampleEntryAc : SearchEntry :=
  { system := "A", systemType := "unknown", systemName := "n", code := "c",
    display := "C display", definition := "", searchTerms := ["c"], properties := [],
    mappings := [] }

/-- A one-entry index keyed `"A|c"`. -/
def sampleIndexKeyAc : SearchIndex := [("A|c", sampleEntryAc)]

/-- Witness for C9: with two elements addressing `"A|c"`, the final
mappings equal the resolved targets of the second element only — the first
element's `relatedto` mapping is lost. -/
theorem c9_mappings_assignment_last_wins_witness :
    mapGet (enhanceWithMappings c9Store sampleIndexKeyAc) "A|c" =
      some { sampleEntryAc with
        mappings := (allUpdates "A|c" c9Maps).getLastD sampleEntryAc.mappings } :=
  c9_mappings_assignment_last_wins c9Store c9Maps sampleIndexKeyAc "A|c" sampleEntryAc
    rfl rfl (by decide)

end Qwerty
